import Mathlib

/-!
Verification development for the AI-Leadership-Insight-Agent repository.

Shallow embedding of the decision, retrieval, computation and synthesis
logic of the agent pipeline:
  * `leadership_agent/agent/planner.py`      — keyword / LLM routing
  * `leadership_agent/agent/controller.py`   — tool executor and synthesizer
  * `leadership_agent/services/agent_service.py` — run entry point
  * `leadership_agent/tools/financial_tool.py`   — numeric parsing and YoY
  * `leadership_agent/eval/ragas_eval.py`    — judge-score parsing, recall
  * `leadership_agent/vectorstore/qdrant_store.py` — upsert contract

Python floats are modelled as exact rationals (ℚ); Python dicts as
association lists; external capabilities (LLM, vector client, uuid supply)
as explicit parameters or counters.
-/

/- ── String helpers (models of Python str operations over code points) ── -/

/-- Model of Python `str.lower()` (ASCII case folding, as `Char.toLower`). -/
def toLowerStr (s : String) : String := String.mk (s.toList.map Char.toLower)

/-- Boolean check that the first list is a prefix of the second. -/
def isPrefixL : List Char → List Char → Bool
  | [], _ => true
  | _ :: _, [] => false
  | p :: ps, s :: ss => p == s && isPrefixL ps ss

/-- Model of Python substring containment: `pat in s` over code points. -/
def containsSub : List Char → List Char → Bool
  | [], pat => pat.isEmpty
  | c :: t, pat => isPrefixL pat (c :: t) || containsSub t pat

/-- Model of Python `kw in s` on strings. -/
def strContains (s kw : String) : Bool := containsSub s.toList kw.toList

/-- Model of the Python slice `s[:n]` (by code points). -/
def strTake (n : Nat) (s : String) : String := String.mk (s.toList.take n)

/- ── Router: planner.py ── -/

/-- `_PLOT_KEYWORDS` from planner.py (a Python set; membership is
order-independent, modelled as a list). -/
def PLOT_KEYWORDS : List String :=
  ["plot", "chart", "graph", "visuali", "show trend", "bar chart", "line chart"]

/-- `_FINANCIAL_KEYWORDS` from planner.py. -/
def FINANCIAL_KEYWORDS : List String :=
  ["revenue", "growth", "compare", "comparison", "trend", "income",
   "profit", "operating", "year over year", "yoy", "fiscal", "earnings",
   "sales", "margin"]

/-- `_keyword_route` from planner.py: lower-case the query, check the plot
keyword set first, then the financial set, otherwise None. -/
def keyword_route (query : String) : Option String :=
  let lower := toLowerStr query
  if PLOT_KEYWORDS.any (fun kw => strContains lower kw) then some "plot"
  else if FINANCIAL_KEYWORDS.any (fun kw => strContains lower kw) then some "financial"
  else none

/-- Outcome of the Bedrock LLM call plus JSON parsing inside `_llm_route`:
`exc` is an exception raised by the converse call; `notDict` covers a
response whose text is not a JSON object with a lowerable tool field
(json.loads raising, a non-dict value, or a non-string tool — all caught
by the same `except Exception` block); `dict tool? reason?` is a parsed
JSON object with optional string fields "tool" and "reason". -/
inductive LLMOutcome where
  | exc : LLMOutcome
  | notDict : LLMOutcome
  | dict (tool : Option String) (reason : Option String) : LLMOutcome

/-- The allowed routing labels checked by `_llm_route`. -/
def ROUTER_ENUM : List String := ["retriever", "financial", "plot"]

/-- `_llm_route` from planner.py, as a function of the LLM-call outcome. -/
def llm_route (o : LLMOutcome) : String × String :=
  match o with
  | .exc => ("retriever", "Fallback due to LLM routing error")
  | .notDict => ("retriever", "Fallback due to LLM routing error")
  | .dict tool? reason? =>
    let tool := toLowerStr (tool?.getD "retriever")
    let reason := reason?.getD "LLM classification"
    if ROUTER_ENUM.contains tool then (tool, reason) else ("retriever", reason)

/-- The `plan` produced by `planner_node`: keyword route first, LLM
fallback when inconclusive. -/
def planner_plan (query : String) (o : LLMOutcome) : String :=
  match keyword_route query with
  | some t => t
  | none => (llm_route o).1

/-- The dispatch branch taken by `tool_executor_node` in controller.py:
the final else branch is the unknown-plan fallback. -/
def tool_executor_branch (plan : String) : String :=
  if plan = "retriever" then "retriever"
  else if plan = "financial" then "financial"
  else if plan = "plot" then "plot"
  else "unknown_fallback"

/- ── Ordering of year strings (model of Python sorted on str) ── -/

/-- Lexicographic ≤ on code-point lists: Python string comparison. -/
def lexLe : List Char → List Char → Bool
  | [], _ => true
  | _ :: _, [] => false
  | x :: xs, y :: ys =>
    if x.toNat < y.toNat then true
    else if y.toNat < x.toNat then false
    else lexLe xs ys

/-- Python `a <= b` on strings (code-point lexicographic). -/
def strLeB (a b : String) : Bool := lexLe a.toList b.toList

/-- Stable insertion into an ascending list. -/
def insertSorted (a : String) : List String → List String
  | [] => [a]
  | b :: t => if strLeB a b then a :: b :: t else b :: insertSorted a t

/-- Model of Python `sorted` on a list of strings (stable, ascending). -/
def sortStrings : List String → List String
  | [] => []
  | a :: t => insertSorted a (sortStrings t)

/- ── Rounding: model of Python round(x, ndigits) on exact rationals ── -/

/-- Round to the nearest integer, ties to even (Python banker rounding). -/
def roundHalfEven (q : ℚ) : ℤ :=
  if q - ⌊q⌋ < 1/2 then ⌊q⌋
  else if q - ⌊q⌋ > 1/2 then ⌊q⌋ + 1
  else if ⌊q⌋ % 2 = 0 then ⌊q⌋ else ⌊q⌋ + 1

/-- Model of Python `round(q, 2)`. -/
def round2 (q : ℚ) : ℚ := (roundHalfEven (q * 100) : ℚ) / 100

/-- Model of Python `round(q, 3)`. -/
def round3 (q : ℚ) : ℚ := (roundHalfEven (q * 1000) : ℚ) / 1000

/- ── Trend Engine: financial_tool.py ── -/

/-- The body of the loop in `_compute_yoy` for a non-first year `y` with
predecessor `py`: the guard `prev_val and curr_val and prev_val != 0`
under float truthiness (a float is truthy iff non-zero) is
`pv ≠ 0 ∧ cv ≠ 0` (the final `!= 0` test is redundant). -/
def yoyStep (get : String → Option ℚ) (prev? : Option String) (y : String) : Option ℚ :=
  match prev? with
  | none => none
  | some py =>
    match get py, get y with
    | some pv, some cv =>
      if pv ≠ 0 ∧ cv ≠ 0 then some (round2 ((cv - pv) / |pv| * 100)) else none
    | _, _ => none

/-- The enumeration loop of `_compute_yoy`: walk the sorted years keeping
the previous year (`none` before the first iteration). -/
def yoyAux (get : String → Option ℚ) (prev? : Option String) :
    List String → List (String × Option ℚ)
  | [] => []
  | y :: rest => (y, yoyStep get prev? y) :: yoyAux get (some y) rest

/-- `_compute_yoy` from financial_tool.py: the dict `values_by_year` is an
association list with distinct keys; `sorted(values_by_year.keys())` is
`sortStrings`; `values_by_year.get` is `List.lookup`. -/
def compute_yoy (values_by_year : List (String × ℚ)) : List (String × Option ℚ) :=
  yoyAux (fun y => values_by_year.lookup y) none
    (sortStrings (values_by_year.map Prod.fst))

/-- The character class kept by `re.sub(r"[^\d.\-]", "", value)`. -/
def keepNumChar (c : Char) : Bool := c.isDigit || c == '.' || c == '-'

/-- Value of a digit string (most significant first). -/
def digitsVal (l : List Char) : ℕ :=
  l.foldl (fun acc c => 10 * acc + (c.toNat - 48)) 0

/-- Value of a fractional digit string ".d₁…dₖ". -/
def fracVal (l : List Char) : ℚ := (digitsVal l : ℚ) / (10 : ℚ) ^ l.length

/-- Python `float(s)` on a sign-free string over digits and a point:
`digits`, `digits.`, `.digits` or `digits.digits`; anything else is a
ValueError (`none`). -/
def parseUnsigned (t : List Char) : Option ℚ :=
  let ip := t.takeWhile Char.isDigit
  match t.drop ip.length with
  | [] => if ip.isEmpty then none else some (digitsVal ip : ℚ)
  | '.' :: fr =>
    let fp := fr.takeWhile Char.isDigit
    if fr.drop fp.length = [] ∧ (ip ≠ [] ∨ fp ≠ []) then
      some ((digitsVal ip : ℚ) + fracVal fp)
    else none
  | _ => none

/-- Python `float(s)` restricted to sign/digit/point strings (the only
alphabet reaching it in `_parse_numeric`; no exponents, infinities or
underscores survive the character strip). -/
def parseFloatQ : List Char → Option ℚ
  | '-' :: t => (parseUnsigned t).map Neg.neg
  | '+' :: t => parseUnsigned t
  | t => parseUnsigned t

/-- `_parse_numeric` from financial_tool.py: strip every character except
digits, '.' and '-', then `float(cleaned) if cleaned else None`, with
ValueError mapped to `None`. -/
def parse_numeric (value : String) : Option ℚ :=
  let cleaned := value.toList.filter keepNumChar
  if cleaned.isEmpty then none else parseFloatQ cleaned

/-- Replace the value of a key in an association list (append if absent):
Python dict item assignment. -/
def setVal : List (String × ℚ) → String → ℚ → List (String × ℚ)
  | [], y, v => [(y, v)]
  | (k, w) :: t, y, v => if k == y then (k, v) :: t else (k, w) :: setVal t y v

/-- `if year not in values_by_year or val > values_by_year[year]:
values_by_year[year] = val` from `_run_financial_analysis`. -/
def values_update (acc : List (String × ℚ)) (year : String) (val : ℚ) :
    List (String × ℚ) :=
  match acc.lookup year with
  | none => setVal acc year val
  | some old => if old < val then setVal acc year val else acc

/-- One iteration of the value-collection loop of `_run_financial_analysis`
on a (year, raw cell) pair: the parsed value contributes only when it
parses and is strictly positive. -/
def values_step (acc : List (String × ℚ)) (cell : String × String) :
    List (String × ℚ) :=
  match parse_numeric cell.2 with
  | some v => if 0 < v then values_update acc cell.1 v else acc
  | none => acc

/-- The value-collection loop of `_run_financial_analysis`: `cells` is the
row-by-row, column-by-column iteration flattened into (fiscal year, raw
cell value) pairs; rows with no derivable year are already skipped. -/
def accumulate_year_values (cells : List (String × String)) : List (String × ℚ) :=
  cells.foldl values_step []

/-- The positive parsed contributions of the cells attributed to year `y`,
in iteration order. -/
def posContributions (y : String) (cells : List (String × String)) : List ℚ :=
  cells.filterMap (fun p =>
    if p.1 == y then
      match parse_numeric p.2 with
      | some v => if 0 < v then some v else none
      | none => none
    else none)

/-- Maximum of a list of rationals, `none` on the empty list. -/
def maxQ : List ℚ → Option ℚ
  | [] => none
  | v :: t => match maxQ t with | none => some v | some m => some (max v m)

/-- Maximum of two optional rationals (`none` is the unit). -/
def optMax : Option ℚ → Option ℚ → Option ℚ
  | none, m => m
  | some a, none => some a
  | some a, some b => some (max a b)

/- ── Evaluator: ragas_eval.py ── -/

/-- `CONTEXT_RECALL_THRESHOLD` from ragas_eval.py. -/
def CONTEXT_RECALL_THRESHOLD : ℚ := 7/10

/-- `score_context_recall` from ragas_eval.py: each chunk dict is modelled
by its optional "score" entry (`c.get("score", 0.0)` defaults to 0). -/
def score_context_recall (chunks : List (Option ℚ)) (threshold : ℚ) : ℚ :=
  if chunks.isEmpty then 0
  else round3 ((chunks.countP (fun c => threshold ≤ c.getD 0) : ℚ) / (chunks.length : ℚ))

/-- JSON values, the possible results of a successful `json.loads`. -/
inductive JsonVal where
  | jnull : JsonVal
  | jbool (b : Bool) : JsonVal
  | jnum (q : ℚ) : JsonVal
  | jstr (s : String) : JsonVal
  | jarr (elems : List JsonVal) : JsonVal
  | jobj (fields : List (String × JsonVal)) : JsonVal

/-- Errors of Python `float(x)` on a JSON value. -/
inductive PyFloatErr where
  | valueError : PyFloatErr
  | typeError : PyFloatErr

/-- Python `float(x)` on a JSON value: numbers pass through, booleans are
0/1, strings are parsed (ValueError when unparseable), and None, lists
and dicts raise TypeError. -/
def pyFloat : JsonVal → Except PyFloatErr ℚ
  | .jnum q => .ok q
  | .jbool b => .ok (if b then 1 else 0)
  | .jstr s =>
    match parseFloatQ ((s.toList.dropWhile Char.isWhitespace).reverse.dropWhile Char.isWhitespace |>.reverse) with
    | some q => .ok q
    | none => .error .valueError
  | _ => .error .typeError

/-- Python `dict.get(key, default)` on a JSON object (last duplicate key
wins, as in `json.loads`). -/
def jsonGet (fields : List (String × JsonVal)) (key : String) : Option JsonVal :=
  ((fields.filter (fun p => p.1 == key)).getLast?).map Prod.snd

/-- Exceptions that escape `_parse_score` (not caught by its
`except (json.JSONDecodeError, ValueError)` handler). -/
inductive PyExc where
  | attributeError : PyExc
  | typeError : PyExc

/-- Python regex word character (`\w`, ASCII approximation). -/
def isWordChar (c : Char) : Bool := c.isAlphanum || c == '_'

/-- The `\b` after the final matched digit: next char absent or non-word. -/
def boundaryAfterDigit : List Char → Bool
  | [] => true
  | c :: _ => !isWordChar c

/-- Attempt to match `\b([01](?:\.\d+)?)\b` at the current position;
`prev?` is the character before the position. Greedy `\d+` with
backtracking collapses to: take the whole digit run if a word boundary
follows it, otherwise drop the optional group. -/
def matchAt (prev? : Option Char) : List Char → Option ℚ
  | [] => none
  | c :: rest =>
    if (c == '0' || c == '1') &&
       (match prev? with | none => true | some p => !isWordChar p) then
      match rest with
      | '.' :: fr =>
        let ds := fr.takeWhile Char.isDigit
        if !ds.isEmpty && boundaryAfterDigit (fr.drop ds.length) then
          some ((if c == '1' then 1 else 0) + fracVal ds)
        else if boundaryAfterDigit rest then
          some (if c == '1' then 1 else 0)
        else none
      | _ =>
        if boundaryAfterDigit rest then some (if c == '1' then 1 else 0) else none
    else none

/-- `re.search` left-to-right scan for the first match of the pattern. -/
def searchFrom (prev? : Option Char) : List Char → Option ℚ
  | [] => none
  | c :: rest =>
    match matchAt prev? (c :: rest) with
    | some v => some v
    | none => searchFrom (some c) rest

/-- The regex fallback of `_parse_score`: value of the first match of
`\b([01](?:\.\d+)?)\b`, else the final `return 0.0`. -/
def regexScore (raw : String) : ℚ := (searchFrom none raw.toList).getD 0

/-- `BedrockJudge._parse_score` from ragas_eval.py, as a function of the
`json.loads(raw)` outcome (`none` = JSONDecodeError) and the raw text.
`data.get` on a non-dict raises AttributeError and `float` on a None,
list or dict raises TypeError; neither is caught by the
`except (json.JSONDecodeError, ValueError)` handler. -/
def parse_score (jsonOutcome : Option JsonVal) (raw : String) : Except PyExc ℚ :=
  match jsonOutcome with
  | none => .ok (regexScore raw)
  | some (.jobj fields) =>
    match pyFloat ((jsonGet fields "score").getD (.jnum 0)) with
    | .ok q => .ok q
    | .error .valueError => .ok (regexScore raw)
    | .error .typeError => .error .typeError
  | some _ => .error .attributeError

/- ── Synthesizer and run entry point: controller.py, agent_service.py ── -/

/-- Outcome of the synthesizer's Bedrock converse call. -/
inductive LLMSynth where
  | success (text : String) : LLMSynth
  | failure : LLMSynth

/-- Python truthiness of `str | None`: true iff a non-empty string. -/
def truthyOptStr : Option String → Bool
  | none => false
  | some s => !(s == "")

/-- `synthesizer_node` from controller.py, reduced to the produced
`final_answer` and whether the LLM capability was invoked (second
component). -/
def synthesizer (tool_outputs : String) (error : Option String) (llm : LLMSynth) :
    String × Bool :=
  if truthyOptStr error then
    ("I encountered an error while processing your request: " ++ error.getD "" ++
      ". Please ensure the documents have been ingested and try again.", false)
  else
    match llm with
    | .success text => (text, true)
    | .failure =>
      ("I was unable to generate a response due to an LLM error. Raw tool output: " ++
        strTake 500 tool_outputs, true)

/-- Outcome of the selected tool's `invoke` inside `tool_executor_node`. -/
inductive ToolOutcome where
  | ok (out : String) : ToolOutcome
  | exc (msg : String) : ToolOutcome

/-- `json.dumps` escaping for the characters that can occur here. -/
def jsonEscapeChar (c : Char) : List Char :=
  if c == '\\' then ['\\', '\\'] else if c == '"' then ['\\', '"'] else [c]

/-- `json.dumps` of a string. -/
def jsonQuote (s : String) : String :=
  "\"" ++ String.mk (s.toList.flatMap jsonEscapeChar) ++ "\""

/-- `json.dumps({"status": "error", "message": error})` from
`tool_executor_node`. -/
def jsonErrorMsg (m : String) : String :=
  "\x7b\"status\": \"error\", \"message\": " ++ jsonQuote m ++ "\x7d"

/-- `tool_executor_node` reduced to the produced (tool_outputs, error)
pair: any tool exception is caught and converted. -/
def tool_executor (t : ToolOutcome) : String × Option String :=
  match t with
  | .ok out => (out, none)
  | .exc m => (jsonErrorMsg m, some m)

/-- Outcome of one `AgentService.run` request: either `run_agent` raised a
fatal exception, or the graph completed with the given tool and
synthesizer-LLM outcomes. -/
inductive RunOutcome where
  | fatal (msg : String) : RunOutcome
  | completed (tool : ToolOutcome) (llm : LLMSynth) : RunOutcome

/-- The `answer` field of the response returned by `AgentService.run`. -/
def agent_service_answer (o : RunOutcome) : String :=
  match o with
  | .fatal m => "Agent encountered an unrecoverable error: " ++ m
  | .completed t llm =>
    (synthesizer (tool_executor t).1 (tool_executor t).2 llm).1

/- ── Vector store: qdrant_store.py ── -/

/-- An ingestion chunk: `{"text": str, "metadata": dict}`. -/
structure Chunk where
  text : String
  metadata : List (String × String)

/-- A Qdrant point. The uuid4 supply is modelled as a monotone counter, so
identifiers are naturals; freshness is the invariant that every stored id
is below the store's `nextId`. -/
structure QdrantPoint where
  id : ℕ
  vector : List ℚ
  payload : List (String × String)

/-- The store: existing collection names, the points of the wrapped
collection, and the next fresh identifier. -/
structure QdrantState where
  collections : List String
  points : List QdrantPoint
  nextId : ℕ

/-- Python dict item assignment on a string-valued association list
(replace in place, append if absent). -/
def setStr : List (String × String) → String → String → List (String × String)
  | [], k, v => [(k, v)]
  | (k', v') :: t, k, v => if k' == k then (k', v) :: t else (k', v') :: setStr t k v

/-- `payload = {**chunk["metadata"], "text": chunk["text"]}`. -/
def payloadOf (c : Chunk) : List (String × String) := setStr c.metadata "text" c.text

/-- The point-construction loop of `QdrantStore.upsert`: zip chunks with
embeddings, a fresh identifier per point. -/
def mkPoints : ℕ → List Chunk → List (List ℚ) → List QdrantPoint
  | _, [], _ => []
  | _, _ :: _, [] => []
  | n, c :: cs, v :: vs => ⟨n, v, payloadOf c⟩ :: mkPoints (n + 1) cs vs

/-- `create_collection` (recreate=False) as invoked from `upsert`:
idempotent creation. -/
def create_collection_if_missing (st : QdrantState) (name : String) : QdrantState :=
  if st.collections.contains name then st
  else { st with collections := st.collections ++ [name] }

/-- `QdrantStore.upsert`: a length mismatch raises ValueError before any
write (the state is returned unchanged); otherwise the collection is
created if missing, the points are appended, and the count returned. -/
def upsert (st : QdrantState) (collection : String) (chunks : List Chunk)
    (embeddings : List (List ℚ)) : QdrantState × Except String ℕ :=
  if chunks.length ≠ embeddings.length then
    (st, .error ("Mismatch: " ++ toString chunks.length ++ " chunks vs " ++
      toString embeddings.length ++ " embeddings"))
  else
    let st1 := create_collection_if_missing st collection
    ({ st1 with
        points := st1.points ++ mkPoints st.nextId chunks embeddings,
        nextId := st.nextId + chunks.length },
     .ok chunks.length)

/- ── Helper lemmas ── -/

theorem containsSub_nilPat (s : List Char) : containsSub s [] = true := by
  cases s <;> simp [containsSub, isPrefixL]

theorem isPrefixL_append_self (p r : List Char) : isPrefixL p (p ++ r) = true := by
  induction p with
  | nil => simp [isPrefixL]
  | cons c cs ih => simp [isPrefixL, ih]

theorem containsSub_append_mid (a p r : List Char) :
    containsSub (a ++ (p ++ r)) p = true := by
  induction a with
  | nil =>
    cases p with
    | nil => simpa using containsSub_nilPat r
    | cons c cs =>
      have h := isPrefixL_append_self (c :: cs) r
      simp [containsSub]
      left
      exact h
  | cons x xs ih => simp [containsSub, ih]

theorem strToList_append (s t : String) : (s ++ t).toList = s.toList ++ t.toList := by
  cases s
  cases t
  rfl

theorem append_ne_empty_left (s t : String) (hs : s ≠ "") : s ++ t ≠ "" := by
  cases s with
  | mk ds =>
    cases t with
    | mk dt =>
      intro h
      apply hs
      have hd : ds ++ dt = [] := by
        have := congrArg String.toList h
        simpa [strToList_append] using this
      have : ds = [] := by
        rcases List.append_eq_nil.mp hd with ⟨h1, _⟩
        exact h1
      simp [this]

theorem keyword_route_cases (q : String) :
    keyword_route q = none ∨ keyword_route q = some "plot" ∨
      keyword_route q = some "financial" := by
  by_cases h1 : PLOT_KEYWORDS.any (fun kw => strContains (toLowerStr q) kw) = true
  · right; left; simp [keyword_route, h1]
  · by_cases h2 : FINANCIAL_KEYWORDS.any (fun kw => strContains (toLowerStr q) kw) = true
    · right; right; simp [keyword_route, h1, h2]
    · left; simp [keyword_route, h1, h2]

theorem llm_route_tool_enum (o : LLMOutcome) :
    (llm_route o).1 = "retriever" ∨ (llm_route o).1 = "financial" ∨
      (llm_route o).1 = "plot" := by
  cases o with
  | exc => left; rfl
  | notDict => left; rfl
  | dict tool? reason? =>
    simp only [llm_route]
    by_cases h : ROUTER_ENUM.contains (toLowerStr (tool?.getD "retriever")) = true
    · rw [if_pos h]
      have hm : toLowerStr (tool?.getD "retriever") = "retriever" ∨
          toLowerStr (tool?.getD "retriever") = "financial" ∨
          toLowerStr (tool?.getD "retriever") = "plot" := by
        simpa [ROUTER_ENUM] using h
      rcases hm with h1 | h1 | h1
      · left; exact h1
      · right; left; exact h1
      · right; right; exact h1
    · rw [if_neg h]
      left; rfl

/-- C1: for every query, the keyword router lower-cases the query and
checks the visualization keyword set before the financial set: any query
containing a visualization keyword is routed to plot even when financial
keywords also match; a financial-only match routes to financial; a query
matching neither set is left for the LLM fallback (None). -/
theorem router_keyword_priority (query : String) :
    (PLOT_KEYWORDS.any (fun kw => strContains (toLowerStr query) kw) = true →
      keyword_route query = some "plot") ∧
    (PLOT_KEYWORDS.any (fun kw => strContains (toLowerStr query) kw) = false →
      FINANCIAL_KEYWORDS.any (fun kw => strContains (toLowerStr query) kw) = true →
      keyword_route query = some "financial") ∧
    (PLOT_KEYWORDS.any (fun kw => strContains (toLowerStr query) kw) = false →
      FINANCIAL_KEYWORDS.any (fun kw => strContains (toLowerStr query) kw) = false →
      keyword_route query = none) :=
  ⟨fun h => by simp [keyword_route, h],
   fun h1 h2 => by simp [keyword_route, h1, h2],
   fun h1 h2 => by simp [keyword_route, h1, h2]⟩

theorem router_keyword_priority_witness :
    (PLOT_KEYWORDS.any (fun kw => strContains (toLowerStr "Plot revenue growth over years") kw) = true ∧
      FINANCIAL_KEYWORDS.any (fun kw => strContains (toLowerStr "Plot revenue growth over years") kw) = true) ∧
    keyword_route "Plot revenue growth over years" = some "plot" :=
  ⟨⟨by decide, by decide⟩,
   (router_keyword_priority "Plot revenue growth over years").1 (by decide)⟩

/-- C7 counterexample: an exception from the LLM capability yields the
reasoning string "Fallback due to LLM routing error", not the claimed
"fallback due to classification error.". -/
theorem llm_route_reasoning_counterexample :
    (llm_route LLMOutcome.exc).2 ≠ "fallback due to classification error." := by decide

/-- C7 (amended): every LLM-route outcome yields a tool in the enum and no
exception propagates; exceptions and unparseable responses map to
("retriever", "Fallback due to LLM routing error"), while a parsed object
with an out-of-enum tool label maps to retriever keeping the parsed
reason (default "LLM classification"). -/
theorem llm_route_fallback (o : LLMOutcome) :
    ((llm_route o).1 = "retriever" ∨ (llm_route o).1 = "financial" ∨
      (llm_route o).1 = "plot") ∧
    (o = LLMOutcome.exc ∨ o = LLMOutcome.notDict →
      llm_route o = ("retriever", "Fallback due to LLM routing error")) ∧
    (∀ tool? reason?, o = LLMOutcome.dict tool? reason? →
      ROUTER_ENUM.contains (toLowerStr (tool?.getD "retriever")) = false →
      llm_route o = ("retriever", reason?.getD "LLM classification")) := by
  refine ⟨llm_route_tool_enum o, fun h => ?_, fun tool? reason? ho hc => ?_⟩
  · rcases h with h | h <;> subst h <;> rfl
  · subst ho
    simp only [llm_route]
    rw [if_neg (by simpa using hc)]

theorem llm_route_fallback_witness :
    ROUTER_ENUM.contains (toLowerStr ((some "Summarizer").getD "retriever")) = false ∧
    llm_route (LLMOutcome.dict (some "Summarizer") (some "the query asks for a summary")) =
      ("retriever", "the query asks for a summary") :=
  ⟨by decide,
   (llm_route_fallback _).2.2 (some "Summarizer") (some "the query asks for a summary") rfl (by decide)⟩

/-- C10: for every query and LLM outcome the planner's plan is exactly one
of retriever, financial or plot; the unknown intent is never produced and
the tool executor's unknown-plan fallback branch is unreachable in the
composed pipeline. -/
theorem planner_plan_enum (query : String) (o : LLMOutcome) :
    (planner_plan query o = "retriever" ∨ planner_plan query o = "financial" ∨
      planner_plan query o = "plot") ∧
    planner_plan query o ≠ "unknown" ∧
    tool_executor_branch (planner_plan query o) ≠ "unknown_fallback" := by
  have hp : planner_plan query o = "retriever" ∨ planner_plan query o = "financial" ∨
      planner_plan query o = "plot" := by
    unfold planner_plan
    rcases keyword_route_cases query with h | h | h <;> rw [h]
    · exact llm_route_tool_enum o
    · right; right; rfl
    · right; left; rfl
  refine ⟨hp, ?_, ?_⟩
  · rcases hp with h | h | h <;> rw [h] <;> decide
  · rcases hp with h | h | h <;> rw [h] <;> decide

/-- C4: whenever the upstream error field is a non-empty string, the
synthesizer produces the fixed template naming the error verbatim and
telling the user to ensure the documents have been ingested, and the LLM
capability is not called (second component false). -/
theorem synthesizer_upstream_error (tool_outputs e : String) (llm : LLMSynth)
    (he : e ≠ "") :
    synthesizer tool_outputs (some e) llm =
      ("I encountered an error while processing your request: " ++ e ++
        ". Please ensure the documents have been ingested and try again.", false) ∧
    strContains (synthesizer tool_outputs (some e) llm).1 e = true := by
  have ht : truthyOptStr (some e) = true := by
    simp [truthyOptStr, he]
  have h1 : synthesizer tool_outputs (some e) llm =
      ("I encountered an error while processing your request: " ++ e ++
        ". Please ensure the documents have been ingested and try again.", false) := by
    simp [synthesizer, ht]
  refine ⟨h1, ?_⟩
  rw [h1]
  show strContains ("I encountered an error while processing your request: " ++ e ++
    ". Please ensure the documents have been ingested and try again.") e = true
  unfold strContains
  rw [strToList_append, strToList_append, List.append_assoc]
  exact containsSub_append_mid _ _ _

theorem synthesizer_upstream_error_witness :
    ("DB unreachable" : String) ≠ "" ∧
    (synthesizer "\x7b\x7d" (some "DB unreachable") LLMSynth.failure =
      ("I encountered an error while processing your request: " ++ "DB unreachable" ++
        ". Please ensure the documents have been ingested and try again.", false) ∧
     strContains (synthesizer "\x7b\x7d" (some "DB unreachable") LLMSynth.failure).1
       "DB unreachable" = true) :=
  ⟨by decide, synthesizer_upstream_error "\x7b\x7d" "DB unreachable" LLMSynth.failure (by decide)⟩

/-- C5 counterexample: when the tool succeeds and the synthesizer's LLM
call succeeds returning the empty string, AgentService.run returns an
empty answer field, so the claim as stated fails for that outcome. -/
theorem run_answer_empty_counterexample :
    agent_service_answer (RunOutcome.completed (ToolOutcome.ok "\x7b\x7d")
      (LLMSynth.success "")) = "" := rfl

/-- C5 (amended): the run entry point returns a non-empty answer on every
failure path (tool failure, synthesizer LLM failure, fatal pipeline
exception); on a successful LLM synthesis the answer equals the LLM's
text, so it is non-empty whenever every successful synthesis text in the
outcome is non-empty. -/
theorem run_answer_nonempty (o : RunOutcome)
    (h : ∀ t s, o = RunOutcome.completed t (LLMSynth.success s) → s ≠ "") :
    agent_service_answer o ≠ "" := by
  cases o with
  | fatal m =>
    exact append_ne_empty_left _ m (by decide)
  | completed t llm =>
    cases t with
    | ok out =>
      cases llm with
      | success s =>
        have hs : s ≠ "" := h _ s rfl
        simpa [agent_service_answer, tool_executor, synthesizer, truthyOptStr] using hs
      | failure =>
        show ("I was unable to generate a response due to an LLM error. Raw tool output: " ++
          strTake 500 out) ≠ ""
        exact append_ne_empty_left _ _ (by decide)
    | exc m =>
      by_cases hm : m = ""
      · subst hm
        cases llm with
        | success s =>
          have hs : s ≠ "" := h _ s rfl
          simpa [agent_service_answer, tool_executor, synthesizer, truthyOptStr] using hs
        | failure =>
          show ("I was unable to generate a response due to an LLM error. Raw tool output: " ++
            strTake 500 (jsonErrorMsg "")) ≠ ""
          exact append_ne_empty_left _ _ (by decide)
      · have ht : truthyOptStr (some m) = true := by
          simp [truthyOptStr, hm]
        have hgoal : agent_service_answer (RunOutcome.completed (ToolOutcome.exc m) llm) =
            "I encountered an error while processing your request: " ++ m ++
            ". Please ensure the documents have been ingested and try again." := by
          simp [agent_service_answer, tool_executor, synthesizer, ht]
        rw [hgoal]
        exact append_ne_empty_left _ _
          (append_ne_empty_left _ _ (by decide))

/-- C5 witness: a fatal pipeline exception still yields a non-empty answer. -/
theorem run_answer_nonempty_witness :
    agent_service_answer (RunOutcome.fatal "boom") ≠ "" :=
  run_answer_nonempty (RunOutcome.fatal "boom") (fun t s h => nomatch h)

theorem lexLe_cons (a b : Char) (xs ys : List Char) :
    lexLe (a :: xs) (b :: ys) = true ↔
      a.toNat < b.toNat ∨ (a.toNat = b.toNat ∧ lexLe xs ys = true) := by
  simp only [lexLe]
  by_cases h1 : a.toNat < b.toNat
  · simp [h1]
  · by_cases h2 : b.toNat < a.toNat
    · simp [h1, h2]
      omega
    · have h3 : a.toNat = b.toNat := by omega
      simp [h1, h2, h3]

theorem lexLe_total (x : List Char) : ∀ y, lexLe x y = true ∨ lexLe y x = true := by
  induction x with
  | nil => intro y; left; rfl
  | cons a xs ih =>
    intro y
    cases y with
    | nil => right; rfl
    | cons b ys =>
      rcases Nat.lt_trichotomy a.toNat b.toNat with h | h | h
      · left; rw [lexLe_cons]; left; exact h
      · rcases ih ys with h2 | h2
        · left; rw [lexLe_cons]; right; exact ⟨h, h2⟩
        · right; rw [lexLe_cons]; right; exact ⟨h.symm, h2⟩
      · right; rw [lexLe_cons]; left; exact h

theorem lexLe_trans (x : List Char) :
    ∀ y z, lexLe x y = true → lexLe y z = true → lexLe x z = true := by
  induction x with
  | nil => intro y z _ _; rfl
  | cons a xs ih =>
    intro y z hxy hyz
    cases y with
    | nil => simp [lexLe] at hxy
    | cons b ys =>
      cases z with
      | nil => simp [lexLe] at hyz
      | cons c zs =>
        rw [lexLe_cons] at hxy hyz ⊢
        rcases hxy with h1 | ⟨h1, hl1⟩
        · rcases hyz with h2 | ⟨h2, _⟩
          · left; omega
          · left; omega
        · rcases hyz with h2 | ⟨h2, hl2⟩
          · left; omega
          · right; exact ⟨by omega, ih _ _ hl1 hl2⟩

theorem strLeB_total (a b : String) : strLeB a b = true ∨ strLeB b a = true :=
  lexLe_total a.toList b.toList

theorem strLeB_trans (a b c : String) (h1 : strLeB a b = true) (h2 : strLeB b c = true) :
    strLeB a c = true :=
  lexLe_trans a.toList b.toList c.toList h1 h2

theorem mem_insertSorted (x a : String) (l : List String) :
    x ∈ insertSorted a l ↔ x = a ∨ x ∈ l := by
  induction l with
  | nil => simp [insertSorted]
  | cons b t ih =>
    simp only [insertSorted]
    by_cases h : strLeB a b = true
    · simp [h]
    · simp only [if_neg h, List.mem_cons, ih]
      tauto

theorem pairwise_insertSorted (a : String) (l : List String)
    (h : l.Pairwise (fun u v => strLeB u v = true)) :
    (insertSorted a l).Pairwise (fun u v => strLeB u v = true) := by
  induction l with
  | nil => simp [insertSorted]
  | cons b t ih =>
    rcases List.pairwise_cons.mp h with ⟨hb, ht⟩
    simp only [insertSorted]
    by_cases hab : strLeB a b = true
    · rw [if_pos hab]
      refine List.Pairwise.cons ?_ h
      intro y hy
      rcases List.mem_cons.mp hy with rfl | hyt
      · exact hab
      · exact strLeB_trans a b y hab (hb y hyt)
    · rw [if_neg hab]
      have hba : strLeB b a = true := by
        rcases strLeB_total a b with h' | h'
        · exact absurd h' hab
        · exact h'
      refine List.Pairwise.cons ?_ (ih ht)
      intro y hy
      rcases (mem_insertSorted y a t).mp hy with rfl | hyt
      · exact hba
      · exact hb y hyt

theorem pairwise_sortStrings (l : List String) :
    (sortStrings l).Pairwise (fun u v => strLeB u v = true) := by
  induction l with
  | nil => exact List.Pairwise.nil
  | cons a t ih => exact pairwise_insertSorted a (sortStrings t) ih

theorem yoyAux_map_fst (get : String → Option ℚ) (p : Option String) (ys : List String) :
    (yoyAux get p ys).map Prod.fst = ys := by
  induction ys generalizing p with
  | nil => rfl
  | cons y rest ih => simp [yoyAux, ih]

theorem yoyAux_split (get : String → Option ℚ) (ys1 : List String) (p : Option String)
    (py y : String) (ys2 : List String) :
    yoyAux get p (ys1 ++ py :: y :: ys2) =
      yoyAux get p (ys1 ++ [py]) ++
        (y, yoyStep get (some py) y) :: yoyAux get (some y) ys2 := by
  induction ys1 generalizing p with
  | nil => simp [yoyAux]
  | cons a t ih => simp [yoyAux, ih]

/-- C2 (amended): the Trend Engine sorts the years ascending; the earliest
year gets null growth; for each later year with predecessor, the growth
is round2(((curr - prev) / abs(prev)) * 100) when both the previous and
the current value are present and non-zero, and null otherwise (the code
also nulls the growth when the current value is zero); 100 then 150
yields exactly 50.0. -/
theorem compute_yoy_spec (m : List (String × ℚ)) :
    ((compute_yoy m).map Prod.fst).Pairwise (fun u v => strLeB u v = true) ∧
    (∀ y0 g rest, compute_yoy m = (y0, g) :: rest → g = none) ∧
    (∀ ys1 py y ys2,
      sortStrings (m.map Prod.fst) = ys1 ++ py :: y :: ys2 →
      ∃ zs1 zs2,
        compute_yoy m = zs1 ++ (y,
          match m.lookup py, m.lookup y with
          | some pv, some cv =>
            if pv ≠ 0 ∧ cv ≠ 0 then some (round2 ((cv - pv) / |pv| * 100)) else none
          | _, _ => none) :: zs2 ∧
        zs1.map Prod.fst = ys1 ++ [py]) ∧
    compute_yoy [("2022", (100 : ℚ)), ("2023", 150)] =
      [("2022", none), ("2023", some 50)] := by
  refine ⟨?_, ?_, ?_, ?_⟩
  · rw [compute_yoy, yoyAux_map_fst]
    exact pairwise_sortStrings _
  · intro y0 g rest h
    rw [compute_yoy] at h
    cases hs : sortStrings (m.map Prod.fst) with
    | nil => rw [hs] at h; exact absurd h (by simp [yoyAux])
    | cons y ys =>
      rw [hs] at h
      simp only [yoyAux, yoyStep] at h
      injection h with hpair hrest
      injection hpair with hy hg
      exact hg.symm
  · intro ys1 py y ys2 hsp
    rw [compute_yoy, hsp, yoyAux_split]
    exact ⟨_, _, rfl, yoyAux_map_fst _ _ _⟩
  · have hne : ((100 : ℚ) ≠ 0 ∧ (150 : ℚ) ≠ 0) := by norm_num
    simp +decide [compute_yoy, yoyAux, yoyStep, sortStrings, insertSorted, strLeB, lexLe,
      List.lookup, hne]
    norm_num [round2, roundHalfEven]

/-- C2 counterexample: with values 2020 ↦ 100 and 2021 ↦ 0 the predecessor
value is present and non-zero, yet the growth for 2021 is null rather
than the claimed formula value (-100.0): the guard also requires the
current value to be truthy. -/
theorem compute_yoy_zero_current_counterexample :
    (compute_yoy [("2020", (100 : ℚ)), ("2021", 0)]).lookup "2021" = some none ∧
    (compute_yoy [("2020", (100 : ℚ)), ("2021", 0)]).lookup "2021" ≠
      some (some (round2 (((0 : ℚ) - 100) / |(100 : ℚ)| * 100))) := by
  constructor
  · simp +decide [compute_yoy, yoyAux, yoyStep, sortStrings, insertSorted, strLeB, lexLe,
      List.lookup]
  · simp +decide [compute_yoy, yoyAux, yoyStep, sortStrings, insertSorted, strLeB, lexLe,
      List.lookup]

/-- C2 witness at the concrete two-year mapping 2022 ↦ 100, 2023 ↦ 150. -/
theorem compute_yoy_spec_witness :
    sortStrings ([("2022", (100 : ℚ)), ("2023", 150)].map Prod.fst) =
      [] ++ "2022" :: "2023" :: [] ∧
    (∃ zs1 zs2,
      compute_yoy [("2022", (100 : ℚ)), ("2023", 150)] = zs1 ++ ("2023",
        match [("2022", (100 : ℚ)), ("2023", 150)].lookup "2022",
              [("2022", (100 : ℚ)), ("2023", 150)].lookup "2023" with
        | some pv, some cv =>
          if pv ≠ 0 ∧ cv ≠ 0 then some (round2 ((cv - pv) / |pv| * 100)) else none
        | _, _ => none) :: zs2 ∧
      zs1.map Prod.fst = [] ++ ["2022"]) :=
  ⟨by decide,
   (compute_yoy_spec [("2022", (100 : ℚ)), ("2023", 150)]).2.2.1 [] "2022" "2023" []
     (by decide)⟩

/-- C3: context recall is 0.0 on the empty evidence list, 0.667 on scores
[0.9, 0.75, 0.5] with threshold 0.70, and in general the fraction of
chunks with score ≥ 0.70 over the total, rounded to 3 decimals. -/
theorem context_recall_spec :
    score_context_recall [] CONTEXT_RECALL_THRESHOLD = 0 ∧
    score_context_recall [some (9/10), some (3/4), some (1/2)] CONTEXT_RECALL_THRESHOLD =
      667/1000 ∧
    (∀ chunks : List (Option ℚ), chunks ≠ [] →
      score_context_recall chunks CONTEXT_RECALL_THRESHOLD =
        round3 ((chunks.countP (fun c => CONTEXT_RECALL_THRESHOLD ≤ c.getD 0) : ℚ) /
          (chunks.length : ℚ))) := by
  refine ⟨rfl, ?_, ?_⟩
  · norm_num [score_context_recall, CONTEXT_RECALL_THRESHOLD, round3, roundHalfEven,
      List.countP_cons]
  · intro chunks hne
    cases chunks with
    | nil => exact absurd rfl hne
    | cons c t => simp [score_context_recall]

/-- C3 witness at the singleton evidence list [some 1]. -/
theorem context_recall_spec_witness :
    (([some (1 : ℚ)] : List (Option ℚ)) ≠ []) ∧
    score_context_recall [some (1 : ℚ)] CONTEXT_RECALL_THRESHOLD =
      round3 ((([some (1 : ℚ)] : List (Option ℚ)).countP
        (fun c => CONTEXT_RECALL_THRESHOLD ≤ c.getD 0) : ℚ) /
        (([some (1 : ℚ)] : List (Option ℚ)).length : ℚ)) :=
  ⟨by decide, context_recall_spec.2.2 [some 1] (by decide)⟩

/-- C6: evaluation of the score parser. A judge response that is valid
JSON but not an object (a bare float "0.8" or "null") raises an uncaught
AttributeError, contradicting the claim that parsing never raises; plain
prose with no float scores 0.0; a float literal is extracted by the regex
fallback; a proper JSON object passes its score through. -/
theorem parse_score_eval :
    parse_score (some (.jnum (4/5))) "0.8" = .error .attributeError ∧
    parse_score (some .jnull) "null" = .error .attributeError ∧
    parse_score none "The answer appears faithful to the context overall" = .ok 0 ∧
    parse_score none "Faithfulness: 0.75" = .ok (3/4) ∧
    parse_score (some (.jobj [("score", .jnum (9/10))])) "\x7b\"score\": 0.9\x7d" =
      .ok (9/10) := by
  refine ⟨rfl, rfl, rfl, ?_, rfl⟩
  have h1 : parse_score none "Faithfulness: 0.75" = .ok ((0 : ℚ) + fracVal ['7', '5']) := rfl
  have h2 : ((0 : ℚ) + fracVal ['7', '5']) = 3/4 := by
    norm_num [fracVal, digitsVal, show '7'.toNat - 48 = 7 from by decide,
      show '5'.toNat - 48 = 5 from by decide]
  rw [h1, h2]

theorem lookup_setVal_self (acc : List (String × ℚ)) (y : String) (v : ℚ) :
    (setVal acc y v).lookup y = some v := by
  induction acc with
  | nil => simp [setVal, List.lookup]
  | cons p t ih =>
    obtain ⟨k, w⟩ := p
    by_cases h : k = y
    · subst h
      simp [setVal, List.lookup]
    · have hky : (k == y) = false := by simp [h]
      have hyk : (y == k) = false := by simp [Ne.symm h]
      simp [setVal, List.lookup, hky, hyk, ih]

theorem lookup_setVal_ne (acc : List (String × ℚ)) (y : String) (v : ℚ) (z : String)
    (hz : z ≠ y) :
    (setVal acc y v).lookup z = acc.lookup z := by
  induction acc with
  | nil => simp [setVal, List.lookup, show (z == y) = false from by simp [hz]]
  | cons p t ih =>
    obtain ⟨k, w⟩ := p
    by_cases h : k = y
    · subst h
      simp [setVal, List.lookup, show (z == k) = false from by simp [hz]]
    · have hky : (k == y) = false := by simp [h]
      simp only [setVal, hky, if_false, List.lookup]
      by_cases hzk : z = k
      · simp [hzk]
      · simp [show (z == k) = false from by simp [hzk], ih]

theorem lookup_values_update_self (acc : List (String × ℚ)) (y : String) (v : ℚ) :
    (values_update acc y v).lookup y =
      some (match acc.lookup y with | none => v | some old => max old v) := by
  cases h : acc.lookup y with
  | none =>
    unfold values_update
    simp only [h]
    simp [lookup_setVal_self]
  | some old =>
    unfold values_update
    simp only [h]
    by_cases hlt : old < v
    · rw [if_pos hlt, lookup_setVal_self]
      simp [max_eq_right (le_of_lt hlt)]
    · rw [if_neg hlt, h]
      simp [max_eq_left (le_of_not_lt hlt)]

theorem lookup_values_update_ne (acc : List (String × ℚ)) (y : String) (v : ℚ)
    (z : String) (hz : z ≠ y) :
    (values_update acc y v).lookup z = acc.lookup z := by
  cases h : acc.lookup y with
  | none =>
    unfold values_update
    simp only [h]
    exact lookup_setVal_ne acc y v z hz
  | some old =>
    unfold values_update
    simp only [h]
    by_cases hlt : old < v
    · rw [if_pos hlt]
      exact lookup_setVal_ne acc y v z hz
    · rw [if_neg hlt]

theorem optMax_none_right (a : Option ℚ) : optMax a none = a := by
  cases a <;> rfl

theorem optMax_assoc (a b c : Option ℚ) :
    optMax (optMax a b) c = optMax a (optMax b c) := by
  cases a <;> cases b <;> cases c <;> simp [optMax, max_assoc]

theorem maxQ_cons (v : ℚ) (t : List ℚ) : maxQ (v :: t) = optMax (some v) (maxQ t) := by
  cases h : maxQ t <;> simp [maxQ, optMax, h]

theorem optMax_some_comm (a : Option ℚ) (v : ℚ) :
    optMax a (some v) = some (match a with | none => v | some old => max old v) := by
  cases a <;> simp [optMax]

theorem foldl_values_step_lookup (cells : List (String × String)) :
    ∀ (acc : List (String × ℚ)) (y : String),
      (cells.foldl values_step acc).lookup y =
        optMax (acc.lookup y) (maxQ (posContributions y cells)) := by
  induction cells with
  | nil =>
    intro acc y
    simp [posContributions, maxQ, optMax_none_right]
  | cons c cs ih =>
    intro acc y
    rw [List.foldl_cons, ih]
    by_cases hy : c.1 = y
    · cases hp : parse_numeric c.2 with
      | none =>
        have hstep : values_step acc c = acc := by
          unfold values_step
          simp only [hp]
        have hpos : posContributions y (c :: cs) = posContributions y cs := by
          unfold posContributions
          rw [List.filterMap_cons]
          simp only [show (c.1 == y) = true from by simp [hy], if_true, hp]
        rw [hstep, hpos]
      | some v =>
        by_cases hv : 0 < v
        · have hstep : values_step acc c = values_update acc y v := by
            unfold values_step
            simp only [hp, if_pos hv, hy]
          have hpos : posContributions y (c :: cs) = v :: posContributions y cs := by
            unfold posContributions
            rw [List.filterMap_cons]
            simp only [show (c.1 == y) = true from by simp [hy], if_true, hp, if_pos hv]
          rw [hstep, hpos, maxQ_cons, lookup_values_update_self,
            ← optMax_some_comm, optMax_assoc]
        · have hstep : values_step acc c = acc := by
            unfold values_step
            simp only [hp, if_neg hv]
          have hpos : posContributions y (c :: cs) = posContributions y cs := by
            unfold posContributions
            rw [List.filterMap_cons]
            simp only [show (c.1 == y) = true from by simp [hy], if_true, hp, if_neg hv]
          rw [hstep, hpos]
    · have hpos : posContributions y (c :: cs) = posContributions y cs := by
        unfold posContributions
        rw [List.filterMap_cons]
        simp [show (c.1 == y) = false from by simp [hy]]
      rw [hpos]
      cases hp : parse_numeric c.2 with
      | none =>
        have hstep : values_step acc c = acc := by
          unfold values_step
          simp only [hp]
        rw [hstep]
      | some v =>
        by_cases hv : 0 < v
        · have hstep : values_step acc c = values_update acc c.1 v := by
            unfold values_step
            simp only [hp, if_pos hv]
          rw [hstep, lookup_values_update_ne _ _ _ _ (fun h => hy h.symm)]
        · have hstep : values_step acc c = acc := by
            unfold values_step
            simp only [hp, if_neg hv]
          rw [hstep]

theorem strToList_mk (l : List Char) : (String.mk l).toList = l := rfl

theorem filter_keepNumChar_idem (l : List Char) :
    (l.filter keepNumChar).filter keepNumChar = l.filter keepNumChar := by
  induction l with
  | nil => rfl
  | cons c t ih =>
    by_cases h : keepNumChar c = true
    · simp [List.filter_cons, h, ih]
    · simp [List.filter_cons, h, ih]

/-- C8: numeric parsing depends only on the kept characters (digits, '.'
and '-'); concrete parses; and per fiscal year the accumulated value is
exactly the maximum of the strictly positive parsed contributions of that
year's cells (non-positive and unparseable cells are discarded). -/
theorem parse_numeric_strip_and_max :
    (∀ v : String,
      parse_numeric v = parse_numeric (String.mk (v.toList.filter keepNumChar))) ∧
    parse_numeric "$211,915" = some 211915 ∧
    parse_numeric "N/A" = none ∧
    parse_numeric "-3.5M" = some (-(7/2)) ∧
    (∀ (cells : List (String × String)) (y : String),
      (accumulate_year_values cells).lookup y = maxQ (posContributions y cells)) := by
  refine ⟨?_, ?_, rfl, ?_, ?_⟩
  · intro v
    simp only [parse_numeric, strToList_mk, filter_keepNumChar_idem]
  · have h : parse_numeric "$211,915" = some (((211915 : ℕ) : ℚ)) := rfl
    rw [h]
    norm_num
  · have h : parse_numeric "-3.5M" = some (-(((3 : ℕ) : ℚ) + fracVal ['5'])) := rfl
    rw [h]
    norm_num [fracVal, digitsVal, show '5'.toNat - 48 = 5 from by decide]
  · intro cells y
    unfold accumulate_year_values
    rw [foldl_values_step_lookup]
    simp [optMax]

theorem mkPoints_id_ge (cs : List Chunk) :
    ∀ (vs : List (List ℚ)) (n : ℕ) (p : QdrantPoint), p ∈ mkPoints n cs vs → n ≤ p.id := by
  induction cs with
  | nil => intro vs n p h; simp [mkPoints] at h
  | cons c ct ih =>
    intro vs n p h
    cases vs with
    | nil => simp [mkPoints] at h
    | cons v vt =>
      simp only [mkPoints, List.mem_cons] at h
      rcases h with h | h
      · subst h; exact le_refl n
      · have := ih vt (n + 1) p h
        omega

theorem mkPoints_ids_nodup (cs : List Chunk) :
    ∀ (vs : List (List ℚ)) (n : ℕ), ((mkPoints n cs vs).map QdrantPoint.id).Nodup := by
  induction cs with
  | nil => intro vs n; simp [mkPoints]
  | cons c ct ih =>
    intro vs n
    cases vs with
    | nil => simp [mkPoints]
    | cons v vt =>
      simp only [mkPoints, List.map_cons, List.nodup_cons]
      refine ⟨?_, ih vt (n + 1)⟩
      intro hmem
      rcases List.mem_map.mp hmem with ⟨p, hp, hid⟩
      have := mkPoints_id_ge ct vt (n + 1) p hp
      omega

theorem create_collection_points (st : QdrantState) (name : String) :
    (create_collection_if_missing st name).points = st.points := by
  unfold create_collection_if_missing
  split <;> rfl

theorem create_collection_nextId (st : QdrantState) (name : String) :
    (create_collection_if_missing st name).nextId = st.nextId := by
  unfold create_collection_if_missing
  split <;> rfl

/-- C9: upsert with mismatched list lengths fails with the ValueError
message and leaves the store unchanged; with equal lengths it returns the
upserted count, appends exactly the new points, creates the collection
idempotently if missing, and the fresh identifiers are pairwise distinct
and (under the counter invariant) distinct from every stored id. -/
theorem upsert_contract (st : QdrantState) (col : String) (chunks : List Chunk)
    (em : List (List ℚ)) :
    (chunks.length ≠ em.length →
      upsert st col chunks em =
        (st, .error ("Mismatch: " ++ toString chunks.length ++ " chunks vs " ++
          toString em.length ++ " embeddings"))) ∧
    (chunks.length = em.length →
      (upsert st col chunks em).2 = .ok chunks.length ∧
      (upsert st col chunks em).1.points = st.points ++ mkPoints st.nextId chunks em ∧
      (upsert st col chunks em).1.collections =
        (if st.collections.contains col then st.collections
         else st.collections ++ [col]) ∧
      col ∈ (upsert st col chunks em).1.collections ∧
      ((mkPoints st.nextId chunks em).map QdrantPoint.id).Nodup ∧
      ((∀ p ∈ st.points, p.id < st.nextId) →
        ∀ p ∈ mkPoints st.nextId chunks em, ∀ q ∈ st.points, p.id ≠ q.id)) := by
  constructor
  · intro h
    unfold upsert
    rw [if_pos h]
  · intro h
    have hsplit : upsert st col chunks em =
        ({ create_collection_if_missing st col with
            points := (create_collection_if_missing st col).points ++
              mkPoints st.nextId chunks em,
            nextId := st.nextId + chunks.length },
         .ok chunks.length) := by
      unfold upsert
      rw [if_neg (by simpa using h)]
    refine ⟨?_, ?_, ?_, ?_, mkPoints_ids_nodup chunks em st.nextId, ?_⟩
    · rw [hsplit]
    · rw [hsplit]
      simp [create_collection_points]
    · rw [hsplit]
      simp only []
      unfold create_collection_if_missing
      split
      · rfl
      · rfl
    · rw [hsplit]
      simp only []
      unfold create_collection_if_missing
      by_cases hc : st.collections.contains col = true
      · rw [if_pos hc]
        simpa using hc
      · rw [if_neg hc]
        simp
    · intro hinv p hp q hq
      have h1 := mkPoints_id_ge chunks em st.nextId p hp
      have h2 := hinv q hq
      omega

/-- C9 witness: a concrete store with one chunk and zero then one
embedding vectors. -/
theorem upsert_contract_witness :
    (([⟨"hello", [("company", "Microsoft")]⟩] : List Chunk).length ≠
      ([] : List (List ℚ)).length) ∧
    (upsert ⟨["leadership_reports"], [], 0⟩ "leadership_reports"
        [⟨"hello", [("company", "Microsoft")]⟩] []).2 =
      .error "Mismatch: 1 chunks vs 0 embeddings" ∧
    (upsert ⟨["leadership_reports"], [], 0⟩ "leadership_reports"
        [⟨"hello", [("company", "Microsoft")]⟩] [[1, 0]]).2 = .ok 1 :=
  ⟨by decide,
   (congrArg Prod.snd
     ((upsert_contract ⟨["leadership_reports"], [], 0⟩ "leadership_reports"
        [⟨"hello", [("company", "Microsoft")]⟩] []).1 (by decide))).trans rfl,
   ((upsert_contract ⟨["leadership_reports"], [], 0⟩ "leadership_reports"
      [⟨"hello", [("company", "Microsoft")]⟩] [[1, 0]]).2 (by decide)).1⟩
